import Mathlib

/-!
Shallow embedding of the error-classification / response-encoding layer
(`error.go`) and the reflective validation engine of the go-tigertonic
repository, together with theorems settling the frozen claims about them.

Modelling conventions:
* Go strings are Lean `String`s; Go `int` is Lean `Int`.
* Go dynamic type assertions (`err.(NamedError)`, `err.(HTTPEquivError)`,
  `err.(*AppError)`, ...) are modelled by a closed universe `GoErr` of error
  values together with capability-probe functions.  The `NamedError` and
  `HTTPEquivError` interfaces and the `SnakeCaseHTTPEquivErrors` global are
  declared outside the given sources; following the spec they are a name
  capability, an HTTP-status capability, and a boolean flag (here an explicit
  parameter `flag`).
* `reflect.TypeOf` information is carried on each error value: the type
  identifier and the fully qualified type string, both already after the one
  level of pointer dereference performed by `errorName`.
* JSON output is modelled as a JSON syntax tree (`Json`); `encoding/json`
  struct encoding with its `omitempty` tags becomes an explicit entry list.
-/

/-- JSON documents, as produced by the response encoder. -/
inductive Json where
  | jstr : String → Json
  | jnum : Int → Json
  | jnull : Json
  | jarr : List Json → Json
  | jobj : List (String × Json) → Json

/-- Lookup of a key in a JSON object entry list (first match). -/
def assocFind (k : String) : List (String × Json) → Option Json
  | [] => none
  | (k₂, v) :: rest => if k₂ = k then some v else assocFind k rest

/-- Character-list version of Go `strings.HasPrefix`: does the second list
lead the first? -/
def leadingMatch : List Char → List Char → Bool
  | _, [] => true
  | [], _ :: _ => false
  | a :: as, b :: bs => a == b && leadingMatch as bs

/-- Character-list version of Go `strings.Contains`. -/
def containsSeq : List Char → List Char → Bool
  | [], sub => sub.isEmpty
  | a :: rest, sub => leadingMatch (a :: rest) sub || containsSeq rest sub

/-- Go `strings.Contains(hay, sub)`. -/
def strContains (hay sub : String) : Bool :=
  containsSeq hay.data sub.data

/-- Helper for `goSplit`: accumulates the current piece (reversed). -/
def goSplitAux (sep : Char) : List Char → List Char → List String
  | [], acc => [String.mk acc.reverse]
  | c :: rest, acc =>
    if c == sep then String.mk acc.reverse :: goSplitAux sep rest []
    else goSplitAux sep rest (c :: acc)

/-- Go `strings.Split(s, sep)` for a one-character separator (the source only
splits on `","`); empty pieces are kept and `goSplit "" c = [""]`. -/
def goSplit (s : String) (sep : Char) : List String :=
  goSplitAux sep s.data []

/-- Go `strings.Replace(strings.ToLower(s), " ", "_", -1)` as used by
`errorName`: every character lower-cased, spaces become underscores. -/
def snakeCase (s : String) : String :=
  String.mk (s.data.map fun c => if c = ' ' then '_' else c.toLower)

/-- Does the first character of the identifier exist and is it a lowercase
letter?  Models `utf8.DecodeRuneInString` + `unicode.IsLower` on a type name
(on the empty string Go decodes `RuneError`, which is not lower). -/
def isLowerFirst (s : String) : Bool :=
  match s.data with
  | [] => false
  | c :: _ => c.isLower

/-- Go `fmt.Sprintf("%q", s)` as used on validator names: the string in double
quotes (validator names contain no characters needing escapes). -/
def goQuote (s : String) : String :=
  "\"" ++ s ++ "\""

/-- Go `net/http.StatusText`: the standard reason phrase, `""` when unknown. -/
def statusText : Int → String
  | 100 => "Continue"
  | 101 => "Switching Protocols"
  | 102 => "Processing"
  | 103 => "Early Hints"
  | 200 => "OK"
  | 201 => "Created"
  | 202 => "Accepted"
  | 203 => "Non-Authoritative Information"
  | 204 => "No Content"
  | 205 => "Reset Content"
  | 206 => "Partial Content"
  | 207 => "Multi-Status"
  | 208 => "Already Reported"
  | 226 => "IM Used"
  | 300 => "Multiple Choices"
  | 301 => "Moved Permanently"
  | 302 => "Found"
  | 303 => "See Other"
  | 304 => "Not Modified"
  | 305 => "Use Proxy"
  | 307 => "Temporary Redirect"
  | 308 => "Permanent Redirect"
  | 400 => "Bad Request"
  | 401 => "Unauthorized"
  | 402 => "Payment Required"
  | 403 => "Forbidden"
  | 404 => "Not Found"
  | 405 => "Method Not Allowed"
  | 406 => "Not Acceptable"
  | 407 => "Proxy Authentication Required"
  | 408 => "Request Timeout"
  | 409 => "Conflict"
  | 410 => "Gone"
  | 411 => "Length Required"
  | 412 => "Precondition Failed"
  | 413 => "Request Entity Too Large"
  | 414 => "Request URI Too Long"
  | 415 => "Unsupported Media Type"
  | 416 => "Requested Range Not Satisfiable"
  | 417 => "Expectation Failed"
  | 418 => "I\x27m a teapot"
  | 421 => "Misdirected Request"
  | 422 => "Unprocessable Entity"
  | 423 => "Locked"
  | 424 => "Failed Dependency"
  | 425 => "Too Early"
  | 426 => "Upgrade Required"
  | 428 => "Precondition Required"
  | 429 => "Too Many Requests"
  | 431 => "Request Header Fields Too Large"
  | 451 => "Unavailable For Legal Reasons"
  | 500 => "Internal Server Error"
  | 501 => "Not Implemented"
  | 502 => "Bad Gateway"
  | 503 => "Service Unavailable"
  | 504 => "Gateway Timeout"
  | 505 => "HTTP Version Not Supported"
  | 506 => "Variant Also Negotiates"
  | 507 => "Insufficient Storage"
  | 508 => "Loop Detected"
  | 510 => "Not Extended"
  | 511 => "Network Authentication Required"
  | _ => ""

/-- The `AppError` struct of `error.go` (json tags: `type,omitempty`,
`code,omitempty`, `description,omitempty`, and `-` on the status code). -/
structure AppError where
  Typ : String
  Code : Int
  Desc : String
  HttpStatusCode : Int
deriving DecidableEq

/-- An error value foreign to the package: its optional `NamedError`
capability (`some s` means `Name()` returns `s`), its optional
`HTTPEquivError` capability, its reflected type identifier and fully
qualified type string (after pointer dereference), and its `Error()` text. -/
structure OtherErr where
  nameCap : Option String
  statusCap : Option Int
  typeIdent : String
  typeFull : String
  msg : String
deriving DecidableEq

/-- Error values that may appear in a `ValidationErrorWrapper`'s field list:
an `*AppError`, an `AppError` value, or a foreign error. -/
inductive BaseErr where
  | appPtr : AppError → BaseErr
  | appVal : AppError → BaseErr
  | other : OtherErr → BaseErr
deriving DecidableEq

/-- The universe of Go `error` values the encoder can receive: a base error
or a `*ValidationErrorWrapper` (embedded `AppError` plus a field list). -/
inductive GoErr where
  | base : BaseErr → GoErr
  | wrapPtr : AppError → List BaseErr → GoErr
deriving DecidableEq

/-- The `NamedError` capability probe (`err.(NamedError)` then `Name()`).
`AppError` and `ValidationErrorWrapper` declare no `Name` method. -/
def errNameCap : GoErr → Option String
  | .base (.other o) => o.nameCap
  | _ => none

/-- The `HTTPEquivError` capability probe (`err.(HTTPEquivError)` then
`StatusCode()`).  `AppError` implements it through its `StatusCode` method,
and the wrapper through the promoted method of its embedded `AppError`. -/
def errStatusCap : GoErr → Option Int
  | .base (.appPtr e) => some e.HttpStatusCode
  | .base (.appVal e) => some e.HttpStatusCode
  | .base (.other o) => o.statusCap
  | .wrapPtr a _ => some a.HttpStatusCode

/-- The `Error()` method: `AppError.Error` returns `Desc` (promoted on the
wrapper); foreign errors carry their own message. -/
def errMsg : GoErr → String
  | .base (.appPtr e) => e.Desc
  | .base (.appVal e) => e.Desc
  | .base (.other o) => o.msg
  | .wrapPtr a _ => a.Desc

/-- The reflected type identifier (`t.Name()` after pointer dereference). -/
def typeIdentOf : GoErr → String
  | .base (.appPtr _) => "AppError"
  | .base (.appVal _) => "AppError"
  | .base (.other o) => o.typeIdent
  | .wrapPtr _ _ => "ValidationErrorWrapper"

/-- The fully qualified type string (`t.String()` after dereference). -/
def typeFullOf : GoErr → String
  | .base (.appPtr _) => "tigertonic.AppError"
  | .base (.appVal _) => "tigertonic.AppError"
  | .base (.other o) => o.typeFull
  | .wrapPtr _ _ => "tigertonic.ValidationErrorWrapper"

/-- Model of `acceptJSON(r)` from `error.go`.  The argument is the value of
`r.Header.Get("Accept")`, which is `""` exactly when the request carries no
usable `Accept` header. -/
def acceptJSON (accept : String) : Bool :=
  if accept = "" then true
  else strContains accept "*/*" || strContains accept "application/json"

/-- Model of `errorName(err, fallback)` from `error.go`.  `flag` is the
`SnakeCaseHTTPEquivErrors` global. -/
def errorName (flag : Bool) (err : GoErr) (fallback : String) : String :=
  if (errNameCap err).getD "" ≠ "" then (errNameCap err).getD ""
  else
    match errStatusCap err, flag with
    | some sc, true => snakeCase (statusText sc)
    | _, _ =>
      if isLowerFirst (typeIdentOf err) then fallback else typeFullOf err

/-- Model of `errorStatusCode(err)` from `error.go`: `*AppError` and
`AppError` return their status field, then the `HTTPEquivError` capability,
then 500. -/
def errorStatusCode : GoErr → Int
  | .base (.appPtr e) => e.HttpStatusCode
  | .base (.appVal e) => e.HttpStatusCode
  | err =>
    match errStatusCap err with
    | some sc => sc
    | none => 500

/-- Model of `NewAppError(errCode, errType, errDesc)` from `error.go`: the
`HttpStatusCode` field is left at its zero value. -/
def NewAppError (errCode : Int) (errType errDesc : String) : GoErr :=
  .base (.appPtr { Typ := errType, Code := errCode, Desc := errDesc, HttpStatusCode := 0 })

/-- A JSON response as produced by the JSON writers: Content-Type header,
status line, and the JSON document written as the body. -/
structure JsonResponse where
  contentType : String
  status : Int
  body : Json

/-- A plaintext response as produced by `WritePlaintextError`. -/
structure TextResponse where
  contentType : String
  status : Int
  body : String

/-- The `encoding/json` object entries of an `AppError`: `type`, `code` and
`description` each with `omitempty`, `HttpStatusCode` tagged `-` (never
emitted), in struct field order. -/
def appErrorEntries (e : AppError) : List (String × Json) :=
  (if e.Typ = "" then [] else [("type", Json.jstr e.Typ)]) ++
  (if e.Code = 0 then [] else [("code", Json.jnum e.Code)]) ++
  (if e.Desc = "" then [] else [("description", Json.jstr e.Desc)])

/-- JSON encoding of an `AppError`. -/
def encodeAppError (e : AppError) : Json :=
  Json.jobj (appErrorEntries e)

/-- JSON encoding of a base error as an element of a wrapper's field list;
foreign error types marshal to an object of their own exported fields, left
opaque here (no claim depends on its contents). -/
def encodeBase : BaseErr → Json
  | .appPtr e => encodeAppError e
  | .appVal e => encodeAppError e
  | .other _ => Json.jobj []

/-- JSON encoding of a `ValidationErrorWrapper`: the embedded `AppError`'s
entries inlined, then the `fields` list (tag `json:"fields"`). -/
def encodeWrap (app : AppError) (fields : List BaseErr) : Json :=
  Json.jobj (appErrorEntries app ++ [("fields", Json.jarr (fields.map encodeBase))])

/-- The `ValidationErrorType` / `ValidationErrorCode` constants of
`error.go`. -/
def ValidationErrorType : String := "validation"

/-- The numeric validation error code constant. -/
def ValidationErrorCode : Int := 8000

/-- Model of `WriteJSONError(w, err)` from `error.go`: set the content type,
write `errorStatusCode err` as the status, then encode the error itself —
a `*AppError` or `*ValidationErrorWrapper` unchanged, anything else
re-wrapped as `AppError{Type: errorName(err, "error"), Desc: err.Error()}`. -/
def WriteJSONError (flag : Bool) (err : GoErr) : JsonResponse :=
  { contentType := "application/json"
    status := errorStatusCode err
    body :=
      match err with
      | .base (.appPtr e) => encodeAppError e
      | .wrapPtr a fs => encodeWrap a fs
      | e =>
        encodeAppError
          { Typ := errorName flag e "error", Code := 0, Desc := errMsg e, HttpStatusCode := 0 } }

/-- Model of `WriteValidationErrors(w, errs)` from `error.go`: status 400 and
a `ValidationErrorWrapper` with the fixed validation type/code/description
and the given errors as its `fields`. -/
def WriteValidationErrors (errs : List BaseErr) : JsonResponse :=
  { contentType := "application/json"
    status := 400
    body :=
      encodeWrap
        { Typ := ValidationErrorType, Code := ValidationErrorCode
          Desc := "One or more fields contain a validation error", HttpStatusCode := 0 }
        errs }

/-- Model of `WritePlaintextError(w, err)` from `error.go`:
`fmt.Fprintf(w, "%s: %s", errorName(err, "error"), err)` after the header and
status writes. -/
def WritePlaintextError (flag : Bool) (err : GoErr) : TextResponse :=
  { contentType := "text/plain"
    status := errorStatusCode err
    body := errorName flag err "error" ++ ": " ++ errMsg err }

/-- Is the document of the single-envelope shape `{"errors": [...]}`? -/
def isEnvelopeB : Json → Bool
  | .jobj [(k, .jarr _)] => k = "errors"
  | _ => false

/-- The array stored under the `fields` key of a response body, if any. -/
def fieldsOf (r : JsonResponse) : Option (List Json) :=
  match r.body with
  | .jobj entries =>
    match assocFind "fields" entries with
    | some (.jarr xs) => some xs
    | _ => none
  | _ => none

/-- A declared struct field as seen through reflection: its identifier, its
`json` tag, its `validate` tag (either `""` when absent), and whether
`CanInterface` holds. -/
structure FieldInfo where
  Name : String
  jsonTag : String
  validateTag : String
  canInterface : Bool
deriving DecidableEq

/-- A Go value as seen by the validation engine: a struct with its declared
fields in order, a pointer, or any non-struct value (opaque payload). -/
inductive GoVal where
  | strct : List (FieldInfo × GoVal) → GoVal
  | ptr : GoVal → GoVal
  | prim : String → GoVal

/-- The `BadField` struct of the validation source (json tags `error`,
`errorCode`, `field`, `description`). -/
structure BadField where
  ErrorString : String
  ErrorCode : Int
  Field : String
  Desc : String
deriving DecidableEq

/-- The validator table `V`: Go map lookup returns `none` for absent names;
a validator returns `none` for a valid value, `some msg` for the message of
the returned error. -/
def VTable : Type := String → Option (GoVal → Option String)

/-- Model of `fieldName(&f)`: the first comma-piece of the `json` tag when it
is non-empty, else the declared identifier. -/
def fieldName (f : FieldInfo) : String :=
  if f.jsonTag = "" then f.Name
  else
    match goSplit f.jsonTag ',' with
    | [] => f.Name
    | t₀ :: _ => if t₀ = "" then f.Name else t₀

mutual

/-- Model of `(v V).Validate(s)`: dereference one pointer level, return `[]`
for non-structs, else walk the declared fields.  `code` and `ename` are the
process-wide `ErrorCodeValidation` / `ErrorValidation` globals set by
`SetValidationError`. -/
def Validate (tbl : VTable) (code : Int) (ename : String) : GoVal → List BadField
  | .strct fields => validateFields tbl code ename fields
  | .ptr (.strct fields) => validateFields tbl code ename fields
  | _ => []
termination_by v => (sizeOf v, 0, 0)

/-- The field loop of `Validate`, in declaration order. -/
def validateFields (tbl : VTable) (code : Int) (ename : String) :
    List (FieldInfo × GoVal) → List BadField
  | [] => []
  | (f, fv) :: rest =>
    validateField tbl code ename f fv ++ validateFields tbl code ename rest
termination_by l => (sizeOf l, 3, 0)

/-- One field of the loop: skipped unless it can be interfaced and carries a
non-empty `validate` tag, else its tag names are processed in order. -/
def validateField (tbl : VTable) (code : Int) (ename : String)
    (f : FieldInfo) (fv : GoVal) : List BadField :=
  if f.canInterface && f.validateTag ≠ "" then
    validateTags tbl code ename f fv (goSplit f.validateTag ',')
  else []
termination_by (sizeOf fv, 2, 0)

/-- The per-name loop over the comma-split `validate` tag: `"struct"`
recurses into the field value; an absent validator appends one synthetic
violation with the raw identifier; a present validator that fails appends a
violation with the serialization-resolved field name. -/
def validateTags (tbl : VTable) (code : Int) (ename : String)
    (f : FieldInfo) (fv : GoVal) : List String → List BadField
  | [] => []
  | vt :: rest =>
    (if vt = "struct" then Validate tbl code ename fv
     else
       match tbl vt with
       | none =>
         [{ ErrorString := ename, ErrorCode := code, Field := f.Name
            Desc := "undefined validator: " ++ goQuote vt }]
       | some vf =>
         match vf fv with
         | none => []
         | some msg =>
           [{ ErrorString := ename, ErrorCode := code, Field := fieldName f
              Desc := msg }]) ++
    validateTags tbl code ename f fv rest
termination_by names => (sizeOf fv, 1, sizeOf names)

end

/-- A foreign error with no capabilities and an unexported type, as produced
by `errors.New`: `errorName` falls back to `"error"`. -/
def plainErr : GoErr :=
  .base (.other
    { nameCap := none, statusCap := none, typeIdent := "errorString"
      typeFull := "errors.errorString", msg := "boom" })

/-- A foreign error with only the HTTP-status capability, at 404. -/
def notFoundEquivErr : GoErr :=
  .base (.other
    { nameCap := none, statusCap := some 404, typeIdent := "fourOhFour"
      typeFull := "pkg.fourOhFour", msg := "missing" })

/-- An `AppError` passed by value, with a status set. -/
def appValExample : AppError :=
  { Typ := "x", Code := 1, Desc := "d", HttpStatusCode := 404 }

/-- An `*AppError` example for the plaintext writer. -/
def plaintextExampleErr : GoErr :=
  .base (.appPtr { Typ := "x", Code := 0, Desc := "boom", HttpStatusCode := 500 })

/-- A validator table with a single validator `"good"` that accepts
everything: any other name is absent. -/
def exampleTableA : VTable :=
  fun s => if s = "good" then some (fun _ => none) else none

/-- A field named `FieldA` with serialization override `fa`, tagged with the
unknown validator `nope`. -/
def exampleFieldA : FieldInfo :=
  { Name := "FieldA", jsonTag := "fa", validateTag := "nope", canInterface := true }

/-- A table whose `required` and `numeric` validators both reject every
value, with distinct messages. -/
def exampleTableB : VTable :=
  fun s =>
    if s = "required" then some (fun _ => some "is required")
    else if s = "numeric" then some (fun _ => some "is not numeric")
    else none

/-- A field tagged `required,numeric` with serialization override `fb`. -/
def exampleFieldB : FieldInfo :=
  { Name := "FieldB", jsonTag := "fb", validateTag := "required,numeric", canInterface := true }

/-- An outer field tagged with the reserved `struct` marker. -/
def exampleOuterField : FieldInfo :=
  { Name := "Outer", jsonTag := "", validateTag := "struct", canInterface := true }

/-- An inner field tagged `required`. -/
def exampleInnerField : FieldInfo :=
  { Name := "Inner", jsonTag := "", validateTag := "required", canInterface := true }

theorem leadingMatch_append (l r : List Char) : leadingMatch (l ++ r) l = true := by
  induction l with
  | nil => cases r <;> rfl
  | cons c cs ih => simp [leadingMatch, ih]

theorem containsSeq_nil_right (h : List Char) : containsSeq h [] = true := by
  cases h <;> rfl

theorem containsSeq_sandwich (p l r : List Char) : containsSeq (p ++ l ++ r) l = true := by
  induction p with
  | nil =>
    cases l with
    | nil => simpa using containsSeq_nil_right r
    | cons c cs =>
      simp only [List.nil_append, containsSeq, List.append_eq]
      rw [← List.cons_append, leadingMatch_append]
      simp
  | cons a p₂ ih =>
    simp only [List.cons_append, containsSeq, List.append_eq]
    rw [ih]
    simp

theorem strContains_sandwich (x y z : String) : strContains (x ++ y ++ z) y = true := by
  have hx : (x ++ y ++ z).data = x.data ++ y.data ++ z.data := by
    simp [String.data_append]
  rw [strContains, hx]
  exact containsSeq_sandwich _ _ _

theorem validateFields_append (tbl : VTable) (code : Int) (ename : String)
    (l₁ l₂ : List (FieldInfo × GoVal)) :
    validateFields tbl code ename (l₁ ++ l₂) =
      validateFields tbl code ename l₁ ++ validateFields tbl code ename l₂ := by
  induction l₁ with
  | nil => simp [validateFields]
  | cons x rest ih =>
    cases x with
    | mk f fv => simp [validateFields, ih]

theorem validateTags_mem (tbl : VTable) (code : Int) (ename : String)
    (f : FieldInfo) (fv : GoVal)
    (IH : ∀ bf ∈ Validate tbl code ename fv, bf.ErrorString = ename ∧ bf.ErrorCode = code) :
    ∀ names, ∀ bf ∈ validateTags tbl code ename f fv names,
      bf.ErrorString = ename ∧ bf.ErrorCode = code := by
  intro names
  induction names with
  | nil => simp [validateTags]
  | cons vt rest ih =>
    intro bf hbf
    simp only [validateTags, List.mem_append] at hbf
    rcases hbf with h | h
    · by_cases hs : vt = "struct"
      · rw [if_pos hs] at h
        exact IH bf h
      · rw [if_neg hs] at h
        cases htbl : tbl vt with
        | none =>
          rw [htbl] at h
          simp only [List.mem_singleton] at h
          subst h
          exact ⟨rfl, rfl⟩
        | some vf =>
          rw [htbl] at h
          simp only at h
          cases hvf : vf fv with
          | none => rw [hvf] at h; simp at h
          | some msg =>
            rw [hvf] at h
            simp only [List.mem_singleton] at h
            subst h
            exact ⟨rfl, rfl⟩
    · exact ih bf h

theorem validateFields_mem (tbl : VTable) (code : Int) (ename : String) :
    ∀ l : List (FieldInfo × GoVal),
      (∀ p ∈ l, ∀ bf ∈ Validate tbl code ename p.2,
        bf.ErrorString = ename ∧ bf.ErrorCode = code) →
      ∀ bf ∈ validateFields tbl code ename l,
        bf.ErrorString = ename ∧ bf.ErrorCode = code := by
  intro l
  induction l with
  | nil => intro _ bf hbf; simp [validateFields] at hbf
  | cons p rest ih =>
    intro hl bf hbf
    obtain ⟨f, fv⟩ := p
    simp only [validateFields, List.mem_append] at hbf
    rcases hbf with h | h
    · rw [validateField] at h
      by_cases hc : f.canInterface && f.validateTag ≠ ""
      · rw [if_pos hc] at h
        exact validateTags_mem tbl code ename f fv
          (hl (f, fv) (List.mem_cons_self _ _)) _ bf h
      · rw [if_neg hc] at h
        simp at h
    · exact ih (fun p hp => hl p (List.mem_cons_of_mem _ hp)) bf h

theorem Validate_mem_aux (tbl : VTable) (code : Int) (ename : String) :
    ∀ (n : Nat) (v : GoVal), sizeOf v ≤ n →
      ∀ bf ∈ Validate tbl code ename v,
        bf.ErrorString = ename ∧ bf.ErrorCode = code := by
  intro n
  induction n with
  | zero =>
    intro v hv
    exfalso
    have h : 0 < sizeOf v := by cases v <;> simp_arith
    omega
  | succ n ih =>
    intro v hv bf hbf
    cases v with
    | prim s => simp [Validate] at hbf
    | strct fields =>
      simp only [Validate] at hbf
      refine validateFields_mem tbl code ename fields ?_ bf hbf
      intro p hp bf₂ hbf₂
      obtain ⟨f, fv⟩ := p
      refine ih fv ?_ bf₂ hbf₂
      have h₁ := List.sizeOf_lt_of_mem hp
      have h₂ : sizeOf (GoVal.strct fields) = 1 + sizeOf fields := by simp
      simp only [Prod.mk.sizeOf_spec] at h₁
      omega
    | ptr w =>
      cases w with
      | strct fields =>
        simp only [Validate] at hbf
        refine validateFields_mem tbl code ename fields ?_ bf hbf
        intro p hp bf₂ hbf₂
        obtain ⟨f, fv⟩ := p
        refine ih fv ?_ bf₂ hbf₂
        have h₁ := List.sizeOf_lt_of_mem hp
        have h₂ : sizeOf (GoVal.ptr (GoVal.strct fields)) = 1 + (1 + sizeOf fields) := by simp
        simp only [Prod.mk.sizeOf_spec] at h₁
        omega
      | ptr w₂ => simp [Validate] at hbf
      | prim s => simp [Validate] at hbf

theorem isEnvelopeB_encodeAppError (e : AppError) :
    isEnvelopeB (encodeAppError e) = false := by
  unfold encodeAppError appErrorEntries
  split_ifs <;> rfl

theorem isEnvelopeB_encodeWrap (a : AppError) (fs : List BaseErr) :
    isEnvelopeB (encodeWrap a fs) = false := by
  unfold encodeWrap appErrorEntries
  split_ifs <;> rfl

/-- C1, counterexample: `WriteJSONError` on a plain foreign error writes the
classified status 500 and the single classified error object
`{"type": "error", "description": "boom"}` as the body — the body is not of
the one-element `{"errors": [...]}` envelope shape the claim states. -/
theorem C1_counterexample :
    (WriteJSONError false plainErr).status = 500 ∧
    (WriteJSONError false plainErr).body =
      Json.jobj [("type", Json.jstr "error"), ("description", Json.jstr "boom")] ∧
    isEnvelopeB (WriteJSONError false plainErr).body = false :=
  ⟨rfl, rfl, rfl⟩

/-- C1, amended: for every error value, `WriteJSONError` sets the Content-Type
to `application/json`, writes the classified status (`errorStatusCode`) as the
response status, and serializes the classified error directly as a single JSON
object — a `*AppError` or `*ValidationErrorWrapper` unchanged, any other error
re-wrapped as an `AppError` built from `errorName` and the error's message —
never wrapped in an `{"errors": [...]}` envelope. -/
theorem C1_amended : ∀ (flag : Bool) (err : GoErr),
    (WriteJSONError flag err).contentType = "application/json" ∧
    (WriteJSONError flag err).status = errorStatusCode err ∧
    isEnvelopeB (WriteJSONError flag err).body = false ∧
    (∀ e, err = .base (.appPtr e) → (WriteJSONError flag err).body = encodeAppError e) ∧
    (∀ a fs, err = .wrapPtr a fs → (WriteJSONError flag err).body = encodeWrap a fs) ∧
    (∀ b, err = .base b → (∀ e, b ≠ .appPtr e) →
      (WriteJSONError flag err).body =
        encodeAppError
          { Typ := errorName flag err "error", Code := 0
            Desc := errMsg err, HttpStatusCode := 0 }) := by
  intro flag err
  refine ⟨rfl, rfl, ?_, ?_, ?_, ?_⟩
  · cases err with
    | base b =>
      cases b with
      | appPtr e => exact isEnvelopeB_encodeAppError e
      | appVal e => exact isEnvelopeB_encodeAppError _
      | other o => exact isEnvelopeB_encodeAppError _
    | wrapPtr a fs => exact isEnvelopeB_encodeWrap a fs
  · intro e he; subst he; rfl
  · intro a fs he; subst he; rfl
  · intro b he hne
    subst he
    cases b with
    | appPtr e => exact absurd rfl (hne e)
    | appVal e => rfl
    | other o => rfl

/-- C1, witness: the amended theorem applied at an `AppError` passed by value
(which the pointer type assertion misses, so it is re-wrapped). -/
theorem C1_witness :
    (WriteJSONError false (.base (.appVal appValExample))).body =
      encodeAppError
        { Typ := "tigertonic.AppError", Code := 0, Desc := "d", HttpStatusCode := 0 } := by
  have h :=
    (C1_amended false (.base (.appVal appValExample))).2.2.2.2.2
      (.appVal appValExample) rfl (fun e hcon => BaseErr.noConfusion hcon)
  rw [h]
  rfl

/-- C2, counterexample: an application error constructed by `NewAppError`
carries no status, and the classifier resolves it to 0, not 500 — so the
resolved status is not always a valid HTTP status integer. -/
theorem C2_counterexample :
    errorStatusCode (NewAppError 42 "test" "desc") = 0 ∧
    errorStatusCode (NewAppError 42 "test" "desc") ≠ 500 :=
  ⟨rfl, by decide⟩

/-- C2, amended: the status resolution is first-match-wins on the error's
TYPE, not on a populated status field: an `AppError` (pointer or value)
resolves to its status field verbatim — even when the field was never set,
as with `NewAppError`, where it is 0 — else the HTTP-status-equivalent
capability, else 500. -/
theorem C2_amended :
    (∀ a, errorStatusCode (.base (.appPtr a)) = a.HttpStatusCode) ∧
    (∀ a, errorStatusCode (.base (.appVal a)) = a.HttpStatusCode) ∧
    (∀ a fs, errorStatusCode (.wrapPtr a fs) = a.HttpStatusCode) ∧
    (∀ o, errorStatusCode (.base (.other o)) = o.statusCap.getD 500) ∧
    (∀ c t d, errorStatusCode (NewAppError c t d) = 0) := by
  refine ⟨fun a => rfl, fun a => rfl, fun a fs => rfl, ?_, fun c t d => rfl⟩
  intro o
  obtain ⟨nc, sc, ti, tf, m⟩ := o
  cases sc <;> rfl

/-- C3: `errorName` resolves first-match-wins: (1) a non-empty name
capability verbatim, regardless of the snake-case flag; (2) else, with the
flag set and an HTTP-status capability, the snake-cased standard reason
phrase; (3) else the fallback when the dereferenced type identifier starts
with a lowercase letter, otherwise the fully qualified type name. -/
theorem C3_resolution :
    (∀ (flag : Bool) (e : GoErr) (fb n : String),
      errNameCap e = some n → n ≠ "" → errorName flag e fb = n) ∧
    (∀ (e : GoErr) (fb : String) (sc : Int),
      (errNameCap e).getD "" = "" → errStatusCap e = some sc →
      errorName true e fb = snakeCase (statusText sc)) ∧
    (∀ (flag : Bool) (e : GoErr) (fb : String),
      (errNameCap e).getD "" = "" → (errStatusCap e = none ∨ flag = false) →
      errorName flag e fb =
        if isLowerFirst (typeIdentOf e) then fb else typeFullOf e) := by
  refine ⟨?_, ?_, ?_⟩
  · intro flag e fb n hn hne
    unfold errorName
    rw [hn]
    simp only [Option.getD_some, ne_eq]
    rw [if_pos hne]
  · intro e fb sc hn hsc
    unfold errorName
    rw [hn, hsc]
    simp
  · intro flag e fb hn h₂
    unfold errorName
    rw [hn]
    simp only [ne_eq, not_true_eq_false, if_false]
    rcases h₂ with h | h
    · rw [h]
    · subst h
      cases hc : errStatusCap e <;> rfl

/-- C3, witness: an error with no name capability and HTTP-equivalent status
404 resolves, with the snake-case flag set, to `"not_found"`. -/
theorem C3_witness :
    ((errNameCap notFoundEquivErr).getD "" = "" ∧
      errStatusCap notFoundEquivErr = some 404) ∧
    errorName true notFoundEquivErr "error" = "not_found" :=
  ⟨⟨rfl, rfl⟩,
    (C3_resolution.2.1 notFoundEquivErr "error" 404 rfl rfl).trans (by decide)⟩

/-- C4, counterexample: `WriteValidationErrors` with an empty violation list
serializes an envelope whose list of violations is EMPTY (and the body is not
of the `{"errors": [...]}` shape at all); the encoder does not fail, but the
produced envelope does not have at least one entry. -/
theorem C4_counterexample :
    fieldsOf (WriteValidationErrors []) = some [] ∧
    isEnvelopeB (WriteValidationErrors []).body = false ∧
    (WriteValidationErrors []).status = 400 :=
  ⟨rfl, rfl, rfl⟩

/-- C4, amended: `WriteValidationErrors` always writes status 400 and a
`ValidationErrorWrapper` whose `fields` list contains exactly the supplied
violations — so the envelope is non-empty exactly when the caller supplies at
least one violation, and the empty violation list yields an empty list
without crashing. -/
theorem C4_amended : ∀ errs : List BaseErr,
    (WriteValidationErrors errs).contentType = "application/json" ∧
    (WriteValidationErrors errs).status = 400 ∧
    fieldsOf (WriteValidationErrors errs) = some (errs.map encodeBase) ∧
    (errs.map encodeBase).length = errs.length := by
  intro errs
  exact ⟨rfl, rfl, rfl, by simp⟩

/-- C5, counterexample: the plaintext body is
`"tigertonic.AppError: boom"` — the classified name, a separator, and the
error's message — and does NOT begin with the `"<status>: "` prefix the
claim states (the status appears only in the response status line). -/
theorem C5_counterexample :
    (WritePlaintextError false plaintextExampleErr).status = 500 ∧
    (WritePlaintextError false plaintextExampleErr).body = "tigertonic.AppError: boom" ∧
    (WritePlaintextError false plaintextExampleErr).body ≠
      "500: tigertonic.AppError: boom" :=
  ⟨rfl, by decide, by decide⟩

/-- C5, amended: for every error value, `WritePlaintextError` writes
Content-Type `text/plain`, the classified status as the response status, and
as the body the classified name, then `": "`, then the error's own message —
with no status prefix in the body. -/
theorem C5_amended : ∀ (flag : Bool) (err : GoErr),
    (WritePlaintextError flag err).contentType = "text/plain" ∧
    (WritePlaintextError flag err).status = errorStatusCode err ∧
    (WritePlaintextError flag err).body =
      errorName flag err "error" ++ ": " ++ errMsg err :=
  fun flag err => ⟨rfl, rfl, rfl⟩

/-- C6: `acceptJSON` is true on the empty header value (which is what a
request with no Accept header yields), and on a non-empty value it is true
iff the value contains `*/*` or `application/json` as a substring — in
particular true for `"text/html, */*"` and false for `"text/html"`. -/
theorem C6_policy :
    acceptJSON "" = true ∧
    (∀ s : String, s ≠ "" →
      acceptJSON s = (strContains s "*/*" || strContains s "application/json")) ∧
    acceptJSON "text/html, */*" = true ∧
    acceptJSON "text/html" = false := by
  refine ⟨rfl, ?_, by decide, by decide⟩
  intro s hs
  rw [acceptJSON, if_neg hs]

/-- C6, witness: the substring equation applied at the concrete non-empty
header `"application/xml"`. -/
theorem C6_witness :
    "application/xml" ≠ "" ∧
    acceptJSON "application/xml" =
      (strContains "application/xml" "*/*" ||
        strContains "application/xml" "application/json") :=
  ⟨by decide, C6_policy.2.1 "application/xml" (by decide)⟩

theorem strContains_append_quote (a vt : String) :
    strContains (a ++ goQuote vt) vt = true := by
  have h := containsSeq_sandwich (a.data ++ ['\"']) vt.data ['\"']
  rw [strContains]
  have he : (a ++ goQuote vt).data = ((a.data ++ ['\"']) ++ vt.data) ++ ['\"'] := by
    simp [goQuote, String.data_append]
  rw [he]
  exact h

/-- C7: a tag naming a validator absent from the table yields exactly one
synthetic violation — its description contains the unknown name, its code is
the configured validation code, and its `Field` is the declared raw
identifier, not the serialization override — and the engine continues with
the remaining names (first conjunct) and the remaining fields (second
conjunct). -/
theorem C7_unknown_validator :
    ∀ (tbl : VTable) (code : Int) (ename : String) (f : FieldInfo) (fv : GoVal)
      (pre post : List (FieldInfo × GoVal)) (vt : String) (rest : List String),
      (vt ≠ "struct" → tbl vt = none →
        validateTags tbl code ename f fv (vt :: rest) =
          { ErrorString := ename, ErrorCode := code, Field := f.Name,
            Desc := "undefined validator: " ++ goQuote vt } ::
            validateTags tbl code ename f fv rest) ∧
      (f.canInterface = true → f.validateTag = vt → goSplit vt ',' = [vt] →
        vt ≠ "struct" → vt ≠ "" → tbl vt = none →
        Validate tbl code ename (.strct (pre ++ (f, fv) :: post)) =
          Validate tbl code ename (.strct pre) ++
          [{ ErrorString := ename, ErrorCode := code, Field := f.Name,
             Desc := "undefined validator: " ++ goQuote vt }] ++
          Validate tbl code ename (.strct post)) ∧
      strContains ("undefined validator: " ++ goQuote vt) vt = true := by
  intro tbl code ename f fv pre post vt rest
  refine ⟨?_, ?_, strContains_append_quote _ _⟩
  · intro hs ht
    simp only [validateTags]
    rw [if_neg hs, ht]
    simp
  · intro hci htag hsplit hs hne ht
    simp only [Validate]
    rw [validateFields_append]
    simp only [validateFields]
    rw [validateField, hci, htag, hsplit]
    rw [if_pos (by simp [hne])]
    simp only [validateTags]
    rw [if_neg hs, ht]
    simp

/-- C7, witness: a field tagged with the unknown validator `nope` (and a
serialization override `fa` that is NOT used) yields exactly the one
synthetic violation with the raw identifier `FieldA`. -/
theorem C7_witness :
    (exampleFieldA.canInterface = true ∧ exampleFieldA.validateTag = "nope" ∧
      exampleTableA "nope" = none) ∧
    Validate exampleTableA 7 "invalid" (.strct [(exampleFieldA, .prim "x")]) =
      [{ ErrorString := "invalid", ErrorCode := 7, Field := "FieldA",
         Desc := "undefined validator: " ++ goQuote "nope" }] := by
  refine ⟨⟨rfl, rfl, rfl⟩, ?_⟩
  have h := (C7_unknown_validator exampleTableA 7 "invalid" exampleFieldA (.prim "x")
      [] [] "nope" []).2.1 rfl rfl rfl (by decide) (by decide) rfl
  simpa [Validate, validateFields, exampleFieldA] using h

/-- C8: a field tagged `required,numeric` whose value fails both validators
yields exactly two violations for that field, in tag order, with the
serialization-resolved field name, interleaved between the violations of the
preceding and following fields in declaration order. -/
theorem C8_multiple_validators :
    ∀ (tbl : VTable) (code : Int) (ename : String) (f : FieldInfo) (fv : GoVal)
      (pre post : List (FieldInfo × GoVal))
      (vf₁ vf₂ : GoVal → Option String) (m₁ m₂ : String),
      f.canInterface = true → f.validateTag = "required,numeric" →
      tbl "required" = some vf₁ → tbl "numeric" = some vf₂ →
      vf₁ fv = some m₁ → vf₂ fv = some m₂ →
      Validate tbl code ename (.strct (pre ++ (f, fv) :: post)) =
        Validate tbl code ename (.strct pre) ++
        [{ ErrorString := ename, ErrorCode := code, Field := fieldName f, Desc := m₁ },
         { ErrorString := ename, ErrorCode := code, Field := fieldName f, Desc := m₂ }] ++
        Validate tbl code ename (.strct post) := by
  intro tbl code ename f fv pre post vf₁ vf₂ m₁ m₂ hci htag h₁ h₂ hm₁ hm₂
  simp only [Validate]
  rw [validateFields_append]
  simp only [validateFields]
  rw [validateField, hci, htag]
  have hsp : goSplit "required,numeric" ',' = ["required", "numeric"] := rfl
  rw [hsp]
  rw [if_pos (by simp)]
  simp only [validateTags]
  rw [if_neg (by decide), h₁]
  simp only
  rw [hm₁]
  rw [if_neg (by decide), h₂]
  simp only
  rw [hm₂]
  simp

/-- C8, witness: both validators of `required,numeric` fail on the value, and
the two violations appear in tag order with the serialization name `fb`. -/
theorem C8_witness :
    Validate exampleTableB 8000 "validation" (.strct [(exampleFieldB, .prim "v")]) =
      [{ ErrorString := "validation", ErrorCode := 8000, Field := "fb", Desc := "is required" },
       { ErrorString := "validation", ErrorCode := 8000, Field := "fb", Desc := "is not numeric" }] := by
  have h := C8_multiple_validators exampleTableB 8000 "validation" exampleFieldB
      (.prim "v") [] [] (fun _ => some "is required") (fun _ => some "is not numeric")
      "is required" "is not numeric" rfl rfl rfl rfl rfl rfl
  simpa [Validate, validateFields, fieldName, exampleFieldB, goSplit, goSplitAux] using h

/-- C9: a field tagged with the reserved name `struct` makes the engine
recurse into the field's value with the same table, splicing the nested
results in at the point of the tag, between the results of the surrounding
fields. -/
theorem C9_struct_tag :
    ∀ (tbl : VTable) (code : Int) (ename : String) (f : FieldInfo) (fv : GoVal)
      (pre post : List (FieldInfo × GoVal)),
      f.canInterface = true → f.validateTag = "struct" →
      Validate tbl code ename (.strct (pre ++ (f, fv) :: post)) =
        Validate tbl code ename (.strct pre) ++ Validate tbl code ename fv ++
        Validate tbl code ename (.strct post) := by
  intro tbl code ename f fv pre post hci htag
  simp only [Validate]
  rw [validateFields_append]
  simp only [validateFields]
  rw [validateField, hci, htag]
  have hsp : goSplit "struct" ',' = ["struct"] := rfl
  rw [hsp]
  simp only [validateTags]
  simp [Validate]

/-- C9, witness: an outer field tagged `struct` whose nested struct has one
failing field yields exactly one violation naming the inner field `Inner`,
not the outer field. -/
theorem C9_witness :
    Validate exampleTableB 3 "vn"
        (.strct [(exampleOuterField, .strct [(exampleInnerField, .prim "v")])]) =
      [{ ErrorString := "vn", ErrorCode := 3, Field := "Inner", Desc := "is required" }] := by
  have h := C9_struct_tag exampleTableB 3 "vn" exampleOuterField
      (.strct [(exampleInnerField, .prim "v")]) [] [] rfl rfl
  simpa [Validate, validateFields, validateField, validateTags, fieldName,
    exampleTableB, exampleInnerField, goSplit, goSplitAux] using h

/-- C10: every violation `Validate` ever returns — synthetic
unknown-validator violations and failed-validator violations alike — carries
the process-wide configured error-name and error-code pair. -/
theorem C10_config_pair :
    ∀ (tbl : VTable) (code : Int) (ename : String) (v : GoVal),
      ∀ bf ∈ Validate tbl code ename v,
        bf.ErrorString = ename ∧ bf.ErrorCode = code :=
  fun tbl code ename v => Validate_mem_aux tbl code ename (sizeOf v) v (le_refl _)

/-- C10, witness: the invariant applied to a concrete violation produced for
an unknown validator name. -/
theorem C10_config_pair_witness :
    ({ ErrorString := "invalid", ErrorCode := 7, Field := "FieldA",
        Desc := "undefined validator: " ++ goQuote "nope" } : BadField) ∈
      Validate exampleTableA 7 "invalid" (.strct [(exampleFieldA, .prim "x")]) ∧
    ({ ErrorString := "invalid", ErrorCode := 7, Field := "FieldA",
        Desc := "undefined validator: " ++ goQuote "nope" } : BadField).ErrorString = "invalid" ∧
    ({ ErrorString := "invalid", ErrorCode := 7, Field := "FieldA",
        Desc := "undefined validator: " ++ goQuote "nope" } : BadField).ErrorCode = 7 := by
  have hmem :
      ({ ErrorString := "invalid", ErrorCode := 7, Field := "FieldA",
          Desc := "undefined validator: " ++ goQuote "nope" } : BadField) ∈
        Validate exampleTableA 7 "invalid" (.strct [(exampleFieldA, .prim "x")]) := by
    simp [Validate, validateFields, validateField, validateTags, exampleTableA,
      exampleFieldA, goSplit, goSplitAux]
  exact ⟨hmem, C10_config_pair exampleTableA 7 "invalid" _ _ hmem⟩
